import Mathlib

/-!
Shallow embedding of the picocaml interpreter and type inferencer
(`src/libs/type_system/*`, `src/libs/execution/*`, `src/libs/syntax/*`).

Modelling conventions:
* Rust `Symbol` is `String`. The UUID source `unique_symbol` is modelled as a
  counter threaded through the inferencer; generated names start with `"%"`,
  a character that can never start an object-language identifier, which is
  faithful to the disjointness the UUID source guarantees.
* Rust `HashSet<(Type, Type)>` (the equation store) is modelled as a list
  without duplicates, inserted in program order; `pick_equation`
  (`iter().last()`) picks the last element of the list.  The Rust set's
  iteration order is unspecified; the list fixes one concrete order.
* Rust `HashMap` environments are association lists where `bind`/`insert`
  removes the previous entry for the key, so list equality is map equality.
* `isize` is modelled as unbounded `Int` (no claim depends on overflow).
* Recursion that is unbounded in Rust (`unify`, `eval`,
  `get_equation_internal`) takes an explicit fuel argument; running out of
  fuel yields a distinguished result that no genuine run produces.
-/

namespace Picocaml

abbrev Symbol := String

/-- Fresh-name supply modelling `adapter::unique_symbol` (a UUID per call):
names `"%0"`, `"%1"`, … are pairwise distinct and distinct from every
object-language identifier. -/
def unique_symbol (n : Nat) : Symbol := "%" ++ toString n

/-- Rust `type_system::types::BaseType`. -/
inductive BaseType where
  | Integer
  | Bool
deriving DecidableEq, Repr

/-- Rust `type_system::types::Type` (named `Ty` because `Type` is reserved). -/
inductive Ty where
  | Base (b : BaseType)
  | List (t : Ty)
  | Variable (name : Symbol)
  | Function (domain : Ty) (range : Ty)
deriving DecidableEq, Repr

/-- Rust `Type::apply_substitution` — renames a type variable.  As in the source,
the `List` case falls through the catch-all arm and is not traversed. -/
def Ty.apply_substitution (t : Ty) (target_variable_name : Symbol)
    (new_variable_name : Symbol) : Ty :=
  match t with
  | .Variable name =>
      if name = target_variable_name then .Variable new_variable_name
      else .Variable name
  | .Function domain range =>
      .Function (domain.apply_substitution target_variable_name new_variable_name)
        (range.apply_substitution target_variable_name new_variable_name)
  | t => t

/-- Rust `Type::apply_substitution_for_type` — replaces a type variable by a type.
As in the source, the `List` case falls through the catch-all arm and is not
traversed. -/
def Ty.apply_substitution_for_type (t : Ty) (target_variable_name : Symbol)
    (new_type : Ty) : Ty :=
  match t with
  | .Variable name =>
      if name = target_variable_name then new_type else .Variable name
  | .Function domain range =>
      .Function (domain.apply_substitution_for_type target_variable_name new_type)
        (range.apply_substitution_for_type target_variable_name new_type)
  | t => t

/-- Rust `type_system::types::free_type_variables`; the `HashSet<Symbol>` result is
modelled as a deduplicated list (membership is what matters). -/
def free_type_variables : Ty → List Symbol
  | .Variable name => [name]
  | .Function domain range =>
      (free_type_variables domain).union (free_type_variables range)
  | .List element_type => free_type_variables element_type
  | .Base _ => []

/-- Rust `unification::occurs_check`.  Note the source returns `false` for
`Type::List(_)` without looking inside the list. -/
def occurs_check (variable_name : Symbol) : Ty → Bool
  | .Base _ => false
  | .List _ => false
  | .Variable name => variable_name = name
  | .Function domain range =>
      occurs_check variable_name domain || occurs_check variable_name range

/-- Rust `unification::Equations = HashSet<(Type, Type)>`, as a duplicate-free
list in insertion order. -/
abbrev Equations := List (Ty × Ty)

/-- Rust `unification::add_equation` (`HashSet::insert`). -/
def add_equation (equations : Equations) (type1 type2 : Ty) : Equations :=
  if (type1, type2) ∈ equations then equations else equations ++ [(type1, type2)]

/-- Rust `unification::pick_equation` (`iter().last()`). -/
def pick_equation (equations : Equations) : Option (Ty × Ty) :=
  equations.getLast?

/-- Rust `unification::remove_equation` (`HashSet::remove`). -/
def remove_equation (equations : Equations) (pair : Ty × Ty) : Equations :=
  equations.erase pair

/-- Rust `unification::apply_substitution_to_all`. -/
def apply_substitution_to_all (equations : Equations) (variable_name : Symbol)
    (t : Ty) : Equations :=
  equations.map fun (t1, t2) =>
    (t1.apply_substitution_for_type variable_name t,
     t2.apply_substitution_for_type variable_name t)

/-- Union of the error enums `UnificationError`, `NormalizeError` and
`TypeInferenceError` (Rust erases them all into `anyhow::Error`), plus the
fuel-exhaustion artifact `OutOfFuel` of this model, which no terminating
Rust run produces. -/
inductive TypeError where
  | Impossible
  | CircularReference
  | CyclicTypeReference
  | UnresolvedType
  | InferenceImpossible
  | InvalidType
  | UndefinedVariable
  | OutOfFuel
deriving DecidableEq, Repr

/-- The body of `unification::unify2` up to its final tail call to `unify`:
occurs-check, then substitution into pending equations and accumulated
substitutions, then recording `(a, p)`. -/
def unify2_step (equations substitutions : Equations) (variable_name : Symbol)
    (t : Ty) : Except TypeError (Equations × Equations) :=
  if occurs_check variable_name t then
    .error .CircularReference
  else
    .ok (apply_substitution_to_all equations variable_name t,
      add_equation (apply_substitution_to_all substitutions variable_name t)
        (.Variable variable_name) t)

/-- Rust `unification::unify`, with fuel (the Rust recursion is unbounded).
`unify2` is inlined through `unify2_step` in the two variable arms. -/
def unify : Nat → Equations → Equations → Except TypeError Equations
  | 0, _, _ => .error .OutOfFuel
  | fuel + 1, equations, substitutions =>
    match pick_equation equations with
    | none => .ok substitutions
    | some (t1, t2) =>
      let remaining := remove_equation equations (t1, t2)
      if t1 = t2 then
        unify fuel remaining substitutions
      else
        match t1, t2 with
        | .Variable name, t2 =>
            match unify2_step remaining substitutions name t2 with
            | .error e => .error e
            | .ok (es, ss) => unify fuel es ss
        | t1, .Variable name =>
            match unify2_step remaining substitutions name t1 with
            | .error e => .error e
            | .ok (es, ss) => unify fuel es ss
        | .Function domain1 range1, .Function domain2 range2 =>
            unify fuel
              (add_equation (add_equation remaining domain1 domain2) range1 range2)
              substitutions
        | .List s1, .List s2 =>
            unify fuel (add_equation remaining s1 s2) substitutions
        | _, _ => .error .Impossible

/-- Rust `unification::get_equation_internal`, with fuel.  The Rust recursion is
bounded by the visited set growing inside the finite set of variable names
occurring in `equations`; at fuel `0` the model returns `some t`, which is
also what every exit path of the source returns when it stops walking. -/
def get_equation_internal :
    Nat → Equations → Ty → List Symbol → Option Ty
  | 0, _, t, _ => some t
  | fuel + 1, equations, t, visited =>
    match t with
    | .Variable name =>
      if name ∈ visited then some (Ty.Variable name)
      else
        let visited := name :: visited
        let replacement := equations.findSome? fun (t1, t2) =>
          if t1 = Ty.Variable name then some t2
          else if t2 = Ty.Variable name then some t1
          else none
        match replacement with
        | some new_type =>
            if new_type = Ty.Variable name then some (Ty.Variable name)
            else get_equation_internal fuel equations new_type visited
        | none => some (Ty.Variable name)
    | t => some t

/-- Rust `unification::get_equation`.  The chain walk visits each distinct
variable name at most once, so `2 * equations.length + 2` fuel always
suffices to reproduce the Rust behaviour. -/
def get_equation (equations : Equations) (t : Ty) : Option Ty :=
  get_equation_internal (2 * equations.length + 2) equations t []

/-- Rust `type_scheme::TypeScheme`; the `HashSet<Symbol>` of quantified variables
is modelled as a list in the set's iteration order. -/
structure TypeScheme where
  variable_names : List Symbol
  base_type : Ty
deriving DecidableEq, Repr

/-- Rust `TypeScheme::new_monomorphic_type_scheme`. -/
def TypeScheme.new_monomorphic_type_scheme (t : Ty) : TypeScheme :=
  ⟨[], t⟩

/-- Rust `TypeScheme::new_polymorphic_type_scheme`. -/
def TypeScheme.new_polymorphic_type_scheme (variable_names : List Symbol)
    (base_type : Ty) : TypeScheme :=
  ⟨variable_names, base_type⟩

/-- Rust `TypeScheme::instantiate`: substitute each quantified variable by a type
variable freshly drawn from `unique_symbol`; `counter` is the state of the
fresh-name supply, returned updated. -/
def TypeScheme.instantiate (scheme : TypeScheme) (counter : Nat) : Ty × Nat :=
  scheme.variable_names.foldl
    (fun (acc : Ty × Nat) v =>
      (acc.1.apply_substitution_for_type v
        (.Variable (unique_symbol acc.2)), acc.2 + 1))
    (scheme.base_type, counter)

/-- Association-list lookup for the `HashMap`s of the model. -/
def assoc_get {α : Type} (m : List (Symbol × α)) (k : Symbol) : Option α :=
  (m.find? fun p => p.1 == k).map fun p => p.2

/-- Association-list insert with overwrite (`HashMap::insert`). -/
def assoc_insert {α : Type} (m : List (Symbol × α)) (k : Symbol) (v : α) :
    List (Symbol × α) :=
  (k, v) :: m.filter fun p => !(p.1 == k)

/-- Rust `type_environment::TypeEnvironment`: name-to-scheme bindings plus the
equation store. -/
structure TypeEnvironment where
  variable_types : List (Symbol × TypeScheme)
  equations : Equations
deriving DecidableEq, Repr

/-- Rust `TypeEnvironment::default()`. -/
def TypeEnvironment.default : TypeEnvironment := ⟨[], []⟩

/-- Rust `TypeEnvironment::get_variable_type`.  Note the source bails with
`NormalizeError::UnresolvedType` when the name is absent. -/
def TypeEnvironment.get_variable_type (te : TypeEnvironment) (variable_name : Symbol)
    (counter : Nat) : Except TypeError (Ty × Nat) :=
  match assoc_get te.variable_types variable_name with
  | some type_scheme => .ok (type_scheme.instantiate counter)
  | none => .error .UnresolvedType

/-- Rust `TypeEnvironment::get_unbound_variables`: builds a set from the candidate
names, then removes every *key* of `variable_types` from it.  The candidate
set is modelled as a deduplicated list. -/
def TypeEnvironment.get_unbound_variables (te : TypeEnvironment)
    (candidate_names : List Symbol) : List Symbol :=
  candidate_names.dedup.filter fun v =>
    !(te.variable_types.any fun p => p.1 == v)

/-- Rust `TypeEnvironment::substitute_variable` (always `Ok` in the source). -/
def TypeEnvironment.substitute_variable (te : TypeEnvironment)
    (variable_name : Symbol) (type_scheme : TypeScheme) : TypeEnvironment :=
  { te with variable_types := assoc_insert te.variable_types variable_name type_scheme }

/-- Rust `TypeEnvironment::add_equation`. -/
def TypeEnvironment.add_equation (te : TypeEnvironment) (type1 type2 : Ty) :
    TypeEnvironment :=
  { te with equations := Picocaml.add_equation te.equations type1 type2 }

/-- Rust `TypeEnvironment::unify_equations`, with the fuel of `unify`. -/
def TypeEnvironment.unify_equations (te : TypeEnvironment) (fuel : Nat) :
    Except TypeError TypeEnvironment :=
  match unify fuel te.equations [] with
  | .error e => .error e
  | .ok equations => .ok { te with equations := equations }

/-- Rust `TypeEnvironment::normalize_type`.  `visited` is the
`TypeTraverseHistory` (`HashSet<Type>`) as a list. -/
def TypeEnvironment.normalize_type (te : TypeEnvironment) (visited : List Ty) :
    Ty → Except TypeError Ty
  | .Base base_type => .ok (.Base base_type)
  | .List t => do
      let t2 ← te.normalize_type visited t
      .ok (.List t2)
  | .Variable name =>
      if Ty.Variable name ∈ visited then .error .CyclicTypeReference
      else
        match get_equation te.equations (.Variable name) with
        | some t => .ok t
        | none => .error .UnresolvedType
  | .Function domain range => do
      let d ← te.normalize_type visited domain
      let r ← te.normalize_type visited range
      .ok (.Function d r)

/-- Rust `syntax::ast::Expression`. -/
inductive Expression where
  | Integer (n : Int)
  | Bool (b : Bool)
  | Variable (name : Symbol)
  | Plus (expression1 expression2 : Expression)
  | Minus (expression1 expression2 : Expression)
  | Times (expression1 expression2 : Expression)
  | LessThan (expression1 expression2 : Expression)
  | If (predicate consequent alternative : Expression)
  | Let (variable_name : Symbol) (bound body : Expression)
  | Fun (parameter : Symbol) (body : Expression)
  | App (function argument : Expression)
  | LetRec (variable_name : Symbol) (bound_function body : Expression)
  | Nil
  | Cons (car cdr : Expression)
  | Match (scrutinee nil_case : Expression)
      (car_name cdr_name : Symbol) (cons_case : Expression)
deriving DecidableEq, Repr

/-- Rust `syntax::value::Value` as used by `execution::evaluation` (closures carry
the evaluation environment, an association list of name-to-value). -/
inductive Value where
  | Integer (n : Int)
  | Bool (b : Bool)
  | Closure (environment : List (Symbol × Value)) (parameter : Symbol)
      (body : Expression)
  | RecClosure (environment : List (Symbol × Value)) (call_name : Symbol)
      (parameter : Symbol) (body : Expression)
  | Nil
  | Cons (car cdr : Value)

/-- Rust `execution::environment::Environment` (a `HashMap<Symbol, Value>`). -/
abbrev Environment := List (Symbol × Value)

/-- Rust `Environment::bind` (`HashMap::insert`; always `Ok` in the source). -/
def Environment.bind (environment : Environment) (variable_name : Symbol)
    (value : Value) : Environment :=
  assoc_insert environment variable_name value

/-- Rust `Environment::get`. -/
def Environment.get (environment : Environment) (variable_name : Symbol) :
    Option Value :=
  assoc_get environment variable_name

/-- Rust `evaluation::EvalError`. -/
inductive EvalError where
  | InvalidExpression
  | UndefinedVariable (name : Symbol)
deriving DecidableEq, Repr

/-- Outcome of `evaluation::eval`: success with the returned environment and
value, an error, or fuel exhaustion (a model artifact: the Rust recursion is
unbounded and may diverge). -/
inductive EvalResult where
  | ok (environment : Environment) (value : Value)
  | error (e : EvalError)
  | timeout

/-- Rust `execution::evaluation::eval`, with fuel decremented at every recursive
entry.  Each arm mirrors the corresponding `eval_*` helper of the source;
binary operators evaluate both operands under the incoming environment and
return that environment, `let`/`app`/`match` return whatever environment the
body evaluation returns. -/
def eval : Nat → Environment → Expression → EvalResult
  | 0, _, _ => .timeout
  | fuel + 1, environment, expression =>
    match expression with
    | .Integer n => .ok environment (.Integer n)
    | .Bool b => .ok environment (.Bool b)
    | .Variable name =>
        match environment.get name with
        | some value => .ok environment value
        | none => .error (.UndefinedVariable name)
    | .Plus expression1 expression2 =>
        match eval fuel environment expression1 with
        | .ok _ v1 =>
          match eval fuel environment expression2 with
          | .ok _ v2 =>
            match v1, v2 with
            | .Integer n1, .Integer n2 => .ok environment (.Integer (n1 + n2))
            | _, _ => .error .InvalidExpression
          | r => r
        | r => r
    | .Minus expression1 expression2 =>
        match eval fuel environment expression1 with
        | .ok _ v1 =>
          match eval fuel environment expression2 with
          | .ok _ v2 =>
            match v1, v2 with
            | .Integer n1, .Integer n2 => .ok environment (.Integer (n1 - n2))
            | _, _ => .error .InvalidExpression
          | r => r
        | r => r
    | .Times expression1 expression2 =>
        match eval fuel environment expression1 with
        | .ok _ v1 =>
          match eval fuel environment expression2 with
          | .ok _ v2 =>
            match v1, v2 with
            | .Integer n1, .Integer n2 => .ok environment (.Integer (n1 * n2))
            | _, _ => .error .InvalidExpression
          | r => r
        | r => r
    | .LessThan expression1 expression2 =>
        match eval fuel environment expression1 with
        | .ok _ v1 =>
          match eval fuel environment expression2 with
          | .ok _ v2 =>
            match v1, v2 with
            | .Integer n1, .Integer n2 => .ok environment (.Bool (n1 < n2))
            | _, _ => .error .InvalidExpression
          | r => r
        | r => r
    | .If predicate consequent alternative =>
        match eval fuel environment predicate with
        | .ok _ v =>
          match v with
          | .Bool true => eval fuel environment consequent
          | .Bool false => eval fuel environment alternative
          | _ => .error .InvalidExpression
        | r => r
    | .Let variable_name bound body =>
        match eval fuel environment bound with
        | .ok _ v => eval fuel (environment.bind variable_name v) body
        | r => r
    | .Fun parameter body =>
        .ok environment (.Closure environment parameter body)
    | .App function argument =>
        match eval fuel environment function with
        | .ok _ closure =>
          match eval fuel environment argument with
          | .ok _ argument_value =>
            match closure with
            | .Closure captured parameter body =>
                eval fuel (Environment.bind captured parameter argument_value) body
            | .RecClosure captured call_name parameter body =>
                let rec_closure := Value.RecClosure captured call_name parameter body
                eval fuel
                  (Environment.bind (Environment.bind captured call_name rec_closure)
                    parameter argument_value) body
            | _ => .error .InvalidExpression
          | r => r
        | r => r
    | .LetRec variable_name bound_function body =>
        match bound_function with
        | .Fun parameter function_body =>
            eval fuel
              (environment.bind variable_name
                (.RecClosure environment variable_name parameter function_body))
              body
        | _ => eval fuel environment body
    | .Nil => .ok environment .Nil
    | .Cons car cdr =>
        match eval fuel environment car with
        | .ok _ car_value =>
          match eval fuel environment cdr with
          | .ok _ cdr_value => .ok environment (.Cons car_value cdr_value)
          | r => r
        | r => r
    | .Match scrutinee nil_case car_name cdr_name cons_case =>
        match eval fuel environment scrutinee with
        | .ok _ v =>
          match v with
          | .Nil => eval fuel environment nil_case
          | .Cons car_value cdr_value =>
              eval fuel
                ((environment.bind car_name car_value).bind cdr_name cdr_value)
                cons_case
          | _ => .error .InvalidExpression
        | r => r

/-- Value component of an evaluation outcome. -/
def EvalResult.value? : EvalResult → Option Value
  | .ok _ v => some v
  | _ => none

/-- Environment component of an evaluation outcome. -/
def EvalResult.environment? : EvalResult → Option Environment
  | .ok e _ => some e
  | _ => none

/-- Rust `type_system::inference::infer`.  `ufuel` is the fuel handed to `unify`
inside the `let rec` rule; `counter` is the fresh-name supply state, threaded
left to right exactly as the Rust calls `unique_symbol`.  Each arm mirrors
the corresponding `infer_*` helper. -/
def infer (ufuel : Nat) :
    TypeEnvironment → Expression → Nat →
      Except TypeError (TypeEnvironment × Ty × Nat)
  | te, .Integer _, counter => .ok (te, .Base .Integer, counter)
  | te, .Bool _, counter => .ok (te, .Base .Bool, counter)
  | te, .Variable name, counter => do
      let (variable_type, counter1) ← te.get_variable_type name counter
      .ok (te, variable_type, counter1)
  | te, .Plus expression1 expression2, counter => do
      let (te1, t1, counter1) ← infer ufuel te expression1 counter
      let (te2, t2, counter2) ← infer ufuel te1 expression2 counter1
      .ok (te2.add_equation t1 t2, t1, counter2)
  | te, .Minus expression1 expression2, counter => do
      let (te1, t1, counter1) ← infer ufuel te expression1 counter
      let (te2, t2, counter2) ← infer ufuel te1 expression2 counter1
      .ok (te2.add_equation t1 t2, t1, counter2)
  | te, .Times expression1 expression2, counter => do
      let (te1, t1, counter1) ← infer ufuel te expression1 counter
      let (te2, t2, counter2) ← infer ufuel te1 expression2 counter1
      .ok (te2.add_equation t1 t2, t1, counter2)
  | te, .LessThan expression1 expression2, counter => do
      let (te1, t1, counter1) ← infer ufuel te expression1 counter
      let (te2, t2, counter2) ← infer ufuel te1 expression2 counter1
      .ok (te2.add_equation t1 t2, .Base .Bool, counter2)
  | te, .If predicate consequent alternative, counter => do
      let (te1, predicate_type, counter1) ← infer ufuel te predicate counter
      let te1 := te1.add_equation predicate_type (.Base .Bool)
      let (te2, consequent_type, counter2) ← infer ufuel te1 consequent counter1
      let (te3, alternative_type, counter3) ← infer ufuel te2 alternative counter2
      .ok (te3.add_equation consequent_type alternative_type,
        consequent_type, counter3)
  | te, .Let variable_name bound body, counter => do
      let (te1, bound_type, counter1) ← infer ufuel te bound counter
      let free_vars := te1.get_unbound_variables (free_type_variables bound_type)
      let te2 := te1.substitute_variable variable_name
        (TypeScheme.new_polymorphic_type_scheme free_vars bound_type)
      infer ufuel te2 body counter1
  | te, .Fun parameter body, counter => do
      let unique_parameter := unique_symbol counter
      let parameter_type := Ty.Variable unique_parameter
      let te1 := te.substitute_variable parameter
        (TypeScheme.new_monomorphic_type_scheme parameter_type)
      let (te2, body_type, counter1) ← infer ufuel te1 body (counter + 1)
      .ok (te2,
        .Function parameter_type (body_type.apply_substitution parameter unique_parameter),
        counter1)
  | te, .App function argument, counter => do
      let (te1, function_type, counter1) ← infer ufuel te function counter
      match function_type with
      | .Function domain range => do
          let (te2, argument_type, counter2) ← infer ufuel te1 argument counter1
          .ok (te2.add_equation domain argument_type, range, counter2)
      | _ => .error .InvalidType
  | te, .LetRec variable_name bound_function body, counter => do
      let argument_type := Ty.Variable (unique_symbol counter)
      let return_type := Ty.Variable (unique_symbol (counter + 1))
      let function_type := Ty.Function argument_type return_type
      let temporal_environment := te.substitute_variable variable_name
        (TypeScheme.new_monomorphic_type_scheme function_type)
      let (bound_function_environment, bound_function_type, counter1) ←
        infer ufuel temporal_environment bound_function (counter + 2)
      match bound_function_type with
      | .Function domain range => do
          let te1 := (bound_function_environment.add_equation argument_type domain).add_equation
            return_type range
          let unified_environment ← te1.unify_equations ufuel
          let actual_function_type ← unified_environment.normalize_type [] function_type
          let free_vars := te1.get_unbound_variables
            (free_type_variables actual_function_type)
          let te2 := te1.substitute_variable variable_name
            (TypeScheme.new_polymorphic_type_scheme free_vars actual_function_type)
          infer ufuel te2 body counter1
      | _ => .error .InvalidType
  | te, .Nil, counter =>
      .ok (te, .List (.Variable (unique_symbol counter)), counter + 1)
  | te, .Cons car cdr, counter => do
      let (te1, car_type, counter1) ← infer ufuel te car counter
      let (te2, cdr_type, counter2) ← infer ufuel te1 cdr counter1
      match cdr_type with
      | .List element_type =>
          .ok (te2.add_equation car_type element_type, cdr_type, counter2)
      | _ => .error .InvalidType
  | te, .Match scrutinee nil_case car_name cdr_name cons_case, counter => do
      let (te1, scrutinee_type, counter1) ← infer ufuel te scrutinee counter
      let (te2, element_type, counter2) ←
        match scrutinee_type with
        | .List element_type =>
            (.ok (te1, element_type, counter1) :
              Except TypeError (TypeEnvironment × Ty × Nat))
        | .Variable name =>
            let element_type := Ty.Variable (unique_symbol counter1)
            .ok (te1.add_equation (.Variable name) (.List element_type),
              element_type, counter1 + 1)
        | _ => .error .InvalidType
      let (te3, nil_case_type, counter3) ← infer ufuel te2 nil_case counter2
      let te4 := (te3.substitute_variable car_name
          (TypeScheme.new_monomorphic_type_scheme element_type)).substitute_variable
        cdr_name
        (TypeScheme.new_monomorphic_type_scheme (.List element_type))
      let (te5, cons_case_type, counter4) ← infer ufuel te4 cons_case counter3
      .ok (te5.add_equation nil_case_type cons_case_type, nil_case_type, counter4)

/-- Rust `type_system::inference::type_inference`: infer, unify the collected
equations, then normalize the inferred type against the solved store. -/
def type_inference (ufuel : Nat) (type_environment : TypeEnvironment)
    (expression : Expression) (counter : Nat) :
    Except TypeError (TypeEnvironment × Ty × Nat) := do
  let (inferred_environment, inferred_type, counter1) ←
    infer ufuel type_environment expression counter
  let unified_environment ← inferred_environment.unify_equations ufuel
  let normalized_type ← unified_environment.normalize_type [] inferred_type
  .ok (unified_environment, normalized_type, counter1)

/-- Type component of an inference outcome. -/
def inferred_type? (r : Except TypeError (TypeEnvironment × Ty × Nat)) :
    Option Ty :=
  match r with
  | .ok (_, t, _) => some t
  | .error _ => none

/-- True when some equation of the store has a type variable on the left
whose name occurs in the free type variables of the right side. -/
def store_has_occurs_violation (substitutions : Equations) : Bool :=
  substitutions.any fun p =>
    match p.1 with
    | .Variable name => (free_type_variables p.2).contains name
    | _ => false

/-- The end-to-end factorial scenario of the spec:
`let rec fact = fun n -> if n < 2 then 1 else n * fact (n - 1) in fact 5`. -/
def factorial_expression : Expression :=
  .LetRec "fact"
    (.Fun "n"
      (.If (.LessThan (.Variable "n") (.Integer 2))
        (.Integer 1)
        (.Times (.Variable "n")
          (.App (.Variable "fact") (.Minus (.Variable "n") (.Integer 1))))))
    (.App (.Variable "fact") (.Integer 5))

/-- C1: the claim says unifying an equation that pairs a variable `a` with a
type containing `a` inside a `List` fails with *circular reference*.  On the
code it does not: `occurs_check` returns `false` for every `List` without
looking inside, so `unify` on the single equation `(a, List a)` succeeds and
records the circular binding — even though `a` is in `free_type_variables`
of `List a` by the code's own free-variable function. -/
theorem unify_accepts_variable_inside_list :
    unify 5 [(.Variable "a", .List (.Variable "a"))] []
        = .ok [(.Variable "a", .List (.Variable "a"))]
      ∧ occurs_check "a" (.List (.Variable "a")) = false
      ∧ "a" ∈ free_type_variables (.List (.Variable "a")) := by
  refine ⟨rfl, rfl, by decide⟩

/-- C2 counterexample: evaluating `let x = 1 in 2` in the empty environment
succeeds, and the returned environment is not equal — as a map from names to
values — to the input environment: it contains the local binding `x ↦ 1`. -/
theorem eval_let_changes_environment :
    eval 3 [] (.Let "x" (.Integer 1) (.Integer 2))
        = .ok [("x", Value.Integer 1)] (.Integer 2)
      ∧ ¬ (∀ name, Environment.get [("x", Value.Integer 1)] name
            = Environment.get [] name) := by
  refine ⟨rfl, fun h => ?_⟩
  have hx := h "x"
  simp [Environment.get, assoc_get] at hx

/-- C2 amended: `eval` never mutates its input environment (environments are
persistent), but the environment it returns may extend the input one:
evaluating `let x = n in m` with literal bound and body returns the caller's
environment extended with the local binding, not the caller's environment. -/
theorem eval_let_returns_extended_environment :
    ∀ (environment : Environment) (x : Symbol) (n m : Int),
      eval 3 environment (.Let x (.Integer n) (.Integer m))
        = .ok (environment.bind x (.Integer n)) (.Integer m) :=
  fun _ _ _ _ => rfl

/-- C3: a successful run of `unify` can return a store in which a type
variable stands on the left of an equation whose right side contains that
same variable (the occurs-check slip of C1), so the returned substitution is
not a solved store in the sense of the specification's invariant. -/
theorem unify_returns_unsolved_store :
    unify 5 [(.Variable "a", .List (.Variable "a"))] []
        = .ok [(.Variable "a", .List (.Variable "a"))]
      ∧ store_has_occurs_violation [(.Variable "a", .List (.Variable "a"))]
          = true := by
  refine ⟨rfl, by decide⟩

/-- C4: `get_unbound_variables` removes the *binding names* (keys) of the
type environment from the candidate set, not the type variables used in the
stored schemes: with the environment `{x ↦ ∀∅. a}` and candidate set `{a}`,
the code returns `{a}` although `a` occurs in the scheme bound to `x`, so
`a` would be generalized. -/
theorem get_unbound_variables_ignores_scheme_uses :
    TypeEnvironment.get_unbound_variables
        ⟨[("x", TypeScheme.new_monomorphic_type_scheme (.Variable "a"))], []⟩
        ["a"]
        = ["a"]
      ∧ "a" ∈ free_type_variables
          (TypeScheme.new_monomorphic_type_scheme (Ty.Variable "a")).base_type := by
  refine ⟨by decide, by decide⟩

/-- C5: `instantiate` substitutes through variable and function positions
only; a quantified variable occurring inside a `List` type survives
instantiation unchanged, whatever the state of the fresh-name supply, so the
quantified name remains in the returned type. -/
theorem instantiate_keeps_variable_inside_list :
    ∀ counter : Nat,
      (TypeScheme.instantiate ⟨["a"], .List (.Variable "a")⟩ counter).1
          = .List (.Variable "a") :=
  fun _ => rfl

/-- Helper for the normalization claims: walking the equation chains for a
variable that no equation mentions returns the variable itself. -/
theorem get_equation_internal_unmentioned (fuel : Nat) (equations : Equations)
    (name : Symbol) (visited : List Symbol)
    (h : ∀ p ∈ equations, p.1 ≠ Ty.Variable name ∧ p.2 ≠ Ty.Variable name) :
    get_equation_internal fuel equations (.Variable name) visited
      = some (.Variable name) := by
  cases fuel with
  | zero => rfl
  | succ fuel =>
    unfold get_equation_internal
    by_cases hv : name ∈ visited
    · simp [hv]
    · have hfind : (equations.findSome? fun p : Ty × Ty =>
          if p.1 = Ty.Variable name then some p.2
          else if p.2 = Ty.Variable name then some p.1
          else none) = none := by
        rw [List.findSome?_eq_none_iff]
        intro p hp
        obtain ⟨h1, h2⟩ := h p hp
        simp [h1, h2]
      simp only [hv, if_false]
      rw [show (fun (x : Ty × Ty) =>
          match x with
          | (t1, t2) =>
            if t1 = Ty.Variable name then some t2
            else if t2 = Ty.Variable name then some t1
            else none) = fun p : Ty × Ty =>
          if p.1 = Ty.Variable name then some p.2
          else if p.2 = Ty.Variable name then some p.1
          else none from funext fun p => by cases p; rfl]
      rw [hfind]

/-- C6 counterexample: with the empty (trivially solved) store, the type
variable `a` has no representative, yet `normalize_type` succeeds and
returns the variable unchanged instead of failing with *unresolved type*. -/
theorem normalize_type_accepts_unrepresented_variable :
    TypeEnvironment.normalize_type ⟨[], []⟩ [] (.Variable "a")
        = .ok (.Variable "a")
      ∧ TypeEnvironment.normalize_type ⟨[], []⟩ [] (.Variable "a")
          ≠ .error .UnresolvedType := by
  refine ⟨rfl, fun h => Except.noConfusion h⟩

/-- C6 amended: normalization never fails with *unresolved type*: for a type
variable that no equation of the store mentions, `get_equation` returns the
variable itself (it never returns `none`), so `normalize_type` returns the
variable unchanged. -/
theorem normalize_type_unrepresented_variable_ok :
    ∀ (equations : Equations) (name : Symbol),
      (∀ p ∈ equations, p.1 ≠ Ty.Variable name ∧ p.2 ≠ Ty.Variable name) →
      TypeEnvironment.normalize_type ⟨[], equations⟩ [] (.Variable name)
        = .ok (.Variable name) := by
  intro equations name h
  unfold TypeEnvironment.normalize_type
  rw [show get_equation equations (.Variable name) = some (.Variable name) from
    get_equation_internal_unmentioned _ _ _ _ h]
  simp

/-- Witness for C6's amended theorem at the store `{(b, Integer)}` and the
unmentioned variable `a`. -/
theorem normalize_type_unrepresented_variable_ok_witness :
    (∀ p ∈ ([(Ty.Variable "b", Ty.Base .Integer)] : Equations),
        p.1 ≠ Ty.Variable "a" ∧ p.2 ≠ Ty.Variable "a")
      ∧ TypeEnvironment.normalize_type ⟨[], [(Ty.Variable "b", Ty.Base .Integer)]⟩
          [] (.Variable "a") = .ok (.Variable "a") :=
  ⟨by decide, normalize_type_unrepresented_variable_ok
    [(Ty.Variable "b", Ty.Base .Integer)] "a" (by decide)⟩

/-- C7 counterexample: looking up a name absent from the bindings fails with
the *unresolved type* error (`NormalizeError::UnresolvedType`), which is not
the *undefined variable* error the claim names. -/
theorem get_variable_type_absent_error_identity :
    TypeEnvironment.get_variable_type TypeEnvironment.default "x" 0
        = .error .UnresolvedType
      ∧ TypeError.UnresolvedType ≠ TypeError.UndefinedVariable := by
  refine ⟨rfl, by decide⟩

/-- C7 amended: for every type environment and every name absent from its
bindings, `get_variable_type` fails with the *unresolved type* error. -/
theorem get_variable_type_absent_unresolved :
    ∀ (te : TypeEnvironment) (name : Symbol) (counter : Nat),
      assoc_get te.variable_types name = none →
      te.get_variable_type name counter = .error .UnresolvedType := by
  intro te name counter h
  unfold TypeEnvironment.get_variable_type
  rw [h]

/-- Witness for C7's amended theorem at the empty environment and name `x`. -/
theorem get_variable_type_absent_unresolved_witness :
    assoc_get (TypeEnvironment.default).variable_types "x" = none
      ∧ TypeEnvironment.get_variable_type TypeEnvironment.default "x" 0
          = .error .UnresolvedType :=
  ⟨rfl, get_variable_type_absent_unresolved TypeEnvironment.default "x" 0 rfl⟩

/-- C8: evaluating the factorial scenario in the empty environment yields
the integer value `120`, and running type inference on it in the empty type
environment yields the base type `Integer`. -/
theorem factorial_evaluates_and_types :
    (eval 60 [] factorial_expression).value? = some (.Integer 120)
      ∧ inferred_type?
          (type_inference 200 TypeEnvironment.default factorial_expression 0)
          = some (.Base .Integer) :=
  ⟨rfl, rfl⟩

/-- C9: evaluating a `let rec` whose bound expression is not syntactically a
`Fun` node evaluates the body in the unchanged environment — no error and no
binding for the recursive name. -/
theorem eval_letrec_non_function_falls_through :
    ∀ (fuel : Nat) (environment : Environment) (x : Symbol)
      (bound_function body : Expression),
      (∀ p fb, bound_function ≠ .Fun p fb) →
      eval (fuel + 1) environment (.LetRec x bound_function body)
        = eval fuel environment body := by
  intro fuel environment x bound_function body h
  cases bound_function <;> try rfl
  exact absurd rfl (h _ _)

/-- Witness for C9 at `let rec f = 1 in 2`. -/
theorem eval_letrec_non_function_falls_through_witness :
    eval 2 [] (.LetRec "f" (.Integer 1) (.Integer 2)) = eval 1 [] (.Integer 2) :=
  eval_letrec_non_function_falls_through 1 [] "f" (.Integer 1) (.Integer 2)
    (fun _ _ h => Expression.noConfusion h)

/-- C10: `eval` is deterministic — two runs on the same fuel, environment
and expression produce the same outcome. -/
theorem eval_deterministic :
    ∀ (fuel : Nat) (environment : Environment) (expression : Expression)
      (r1 r2 : EvalResult),
      eval fuel environment expression = r1 →
      eval fuel environment expression = r2 → r1 = r2 :=
  fun _ _ _ _ _ h1 h2 => h1.symm.trans h2

/-- Witness for C10 at `3 + 4` in the empty environment. -/
theorem eval_deterministic_witness :
    EvalResult.ok [] (Value.Integer 7) = EvalResult.ok [] (Value.Integer 7) :=
  eval_deterministic 2 [] (.Plus (.Integer 3) (.Integer 4))
    (.ok [] (.Integer 7)) (.ok [] (.Integer 7)) rfl rfl

end Picocaml
